import Mathlib

/- Verification of the Stan indexed-assignment engine
   (src/stan/model/indexing/lvalue.hpp) and of the MPI auto-adaptation
   metric learner (stan/mcmc/mpi_auto_adaptation.hpp), shallowly embedded
   over exact rationals.  Vectors are lists of rationals, matrices are
   total functions on natural-number indices (dimensions are tracked at the
   use sites), and the throwing validation layer of the math collaborator
   (check_range, check_size_match, check_nonzero_size, check_matching_sizes)
   is modelled by returning an error value next to the state the C++ code
   would leave behind at the throw. -/

/-- Failure kinds raised by the bounds/size validation collaborator:
check_range throws std::out_of_range when an index lies outside [1, size],
and check_size_match throws std::invalid_argument when two sizes differ. -/
inductive IndexErr
  | outOfRange
  | sizeMismatch
  deriving DecidableEq

/-- Embedding of assign(vec, cons_index_list&lt;index_uni, nil&gt;, scalar)
(lvalue.hpp lines 71-77): check_range on the 1-based index n against
x.size(), then the write x.coeffRef(n - 1) = y.  The result pairs the final
vector with the raised error, if any. -/
def assignVecUni (x : List ℚ) (n : ℤ) (y : ℚ) : List ℚ × Option IndexErr :=
  if 1 ≤ n ∧ n ≤ (x.length : ℤ) then (x.set (n - 1).toNat y, none)
  else (x, some IndexErr.outOfRange)

/-- Modelled from the spec: rvalue_at and rvalue_index_size for a multi
index (rvalue_at.hpp and rvalue_index_size.hpp are not among the given
sources) — a multi index is an arbitrary ordered list of 1-based positions,
its resolved size is the length of that list and its k-th resolved position
is its k-th entry.  This is the write loop of
assign(vec, cons_index_list&lt;I, nil&gt;, vec) (lvalue.hpp lines 105-109): for
each position/value pair in order, check_range then write; when the range
check fails, the writes already made stay in place, exactly as for the
in-place C++ mutation. -/
def assignMultiLoop : List ℚ → List (ℤ × ℚ) → List ℚ × Option IndexErr
  | x, [] => (x, none)
  | x, (i, yn) :: rest =>
    if 1 ≤ i ∧ i ≤ (x.length : ℤ) then assignMultiLoop (x.set (i - 1).toNat yn) rest
    else (x, some IndexErr.outOfRange)

/-- Embedding of assign(vec, cons_index_list&lt;I, nil&gt;, vec) for a multi index
(lvalue.hpp lines 97-110): check_size_match between the resolved index size
(the number of positions) and y.size(), then the write loop. -/
def assignVecMulti (x : List ℚ) (ns : List ℤ) (y : List ℚ) : List ℚ × Option IndexErr :=
  if ns.length ≠ y.length then (x, some IndexErr.sizeMismatch)
  else assignMultiLoop x (ns.zip y)

/-- Segment write x.segment(start, len) = y with len equal to y.size():
0-based positions start, ..., start + len - 1 receive y. -/
def setSegment (x : List ℚ) (start : ℕ) (y : List ℚ) : List ℚ :=
  x.take start ++ y ++ x.drop (start + y.length)

/-- Embedding of assign(vec, cons_index_list&lt;index_min_max, nil&gt;, vec)
(lvalue.hpp lines 131-149).  An index_min_max carries fields min_, max_ and
positive_idx_ (the index type lives outside the given sources; per the spec
a range is ascending when positive and descending otherwise, descending
being encoded by swapping the min/max roles).  The overload runs
check_range on min_ and on max_, then on the ascending branch
check_size_match(max_ - 1, y.size()) followed by the write
x.segment(min_ - 1, max_ - 1) = y, and on the descending branch
check_size_match(min_ - 1, y.size()) followed by
x.segment(max_ - 1, min_ - 1) = y.reverse(). -/
def assignVecMinMax (x : List ℚ) (mn mx : ℤ) (positiveIdx : Bool) (y : List ℚ) :
    List ℚ × Option IndexErr :=
  if ¬(1 ≤ mn ∧ mn ≤ (x.length : ℤ)) then (x, some IndexErr.outOfRange)
  else if ¬(1 ≤ mx ∧ mx ≤ (x.length : ℤ)) then (x, some IndexErr.outOfRange)
  else if positiveIdx then
    if mx - 1 ≠ (y.length : ℤ) then (x, some IndexErr.sizeMismatch)
    else (setSegment x (mn - 1).toNat y, none)
  else
    if mn - 1 ≠ (y.length : ℤ) then (x, some IndexErr.sizeMismatch)
    else (setSegment x (mx - 1).toNat y.reverse, none)

/-- Dense matrix with explicit row/column counts and a total entry
function; row and column indices are integers so that the unchecked
row write of the mat[uni, omni] overload can be expressed even for an
out-of-range (possibly negative) row, as in Eigen. -/
structure MatQd where
  rows : ℕ
  cols : ℕ
  entry : ℤ → ℤ → ℚ

/-- Row write x.row(r) = y (0-based row r, y of length x.cols). -/
def matSetRow (x : MatQd) (r : ℤ) (y : List ℚ) : MatQd :=
  ⟨x.rows, x.cols,
    fun i j => if i = r ∧ 0 ≤ j ∧ j < (y.length : ℤ) then y.getD j.toNat 0 else x.entry i j⟩

/-- Embedding of assign(mat, cons_index_list&lt;index_uni, nil&gt;, rowvec)
(lvalue.hpp lines 169-179): check_size_match on the column counts, then
check_range on the 1-based row index, then the row write. -/
def assignMatUni (x : MatQd) (n : ℤ) (y : List ℚ) : MatQd × Option IndexErr :=
  if y.length ≠ x.cols then (x, some IndexErr.sizeMismatch)
  else if 1 ≤ n ∧ n ≤ (x.rows : ℤ) then (matSetRow x (n - 1) y, none)
  else (x, some IndexErr.outOfRange)

/-- Embedding of assign(mat, cons_index_list&lt;index_uni,
cons_index_list&lt;index_omni, nil&gt;&gt;, rowvec) (lvalue.hpp lines 231-242):
check_size_match on the column counts and then directly the row write
x.row(n - 1) = y — this overload performs no check_range on the row
index. -/
def assignMatUniOmni (x : MatQd) (n : ℤ) (y : List ℚ) : MatQd × Option IndexErr :=
  if y.length ≠ x.cols then (x, some IndexErr.sizeMismatch)
  else (matSetRow x (n - 1) y, none)

/-- Matrices of the adaptation subsystem: total entry functions on 0-based
natural indices, dimensions tracked at the use sites. -/
abbrev MatQ := ℕ → ℕ → ℚ

/-- Column mean Y.colwise().mean() over the first m rows. -/
def colMean (m : ℕ) (Y : MatQ) (j : ℕ) : ℚ := (∑ k ∈ Finset.range m, Y k j) / (m : ℚ)

/-- Divisor std::max(centered.rows() - 1.0, 1.0) of internal::covariance. -/
def covDivisor (m : ℕ) : ℚ := max ((m : ℚ) - 1) 1

/-- Embedding of the arithmetic of internal::covariance
(mpi_auto_adaptation.hpp lines 621-626), without the check_nonzero_size
guard: centered = Y.rowwise() - Y.colwise().mean(), and the result is
centered.transpose() * centered / max(rows - 1, 1), whose (i, j) entry is
the sum over rows k of centered(k, i) * centered(k, j), divided by
covDivisor m. -/
def covarianceFn (m : ℕ) (Y : MatQ) : MatQ := fun i j =>
  (∑ k ∈ Finset.range m, (Y k i - colMean m Y i) * (Y k j - colMean m Y j)) / covDivisor m

/-- Failures raised by the math collaborator inside the adaptation
subsystem: check_nonzero_size and check_matching_sizes throw
std::invalid_argument. -/
inductive MathErr
  | invalidArgument
  deriving DecidableEq

/-- Embedding of internal::covariance including its check_nonzero_size
guard: a matrix of m rows and n columns has Eigen size m * n, and size 0
raises std::invalid_argument. -/
def covariance (m n : ℕ) (Y : MatQ) : Except MathErr MatQ :=
  if m * n = 0 then Except.error MathErr.invalidArgument
  else Except.ok (covarianceFn m Y)

/-- Dot product v.dot(w). -/
def dotQ (v w : List ℚ) : ℚ := (List.zipWith (fun a b => a * b) v w).sum

/-- Componentwise division v / c of a vector by a scalar. -/
def vdiv (v : List ℚ) (c : ℚ) : List ℚ := v.map (fun a => a / c)

/-- Loop of internal::power_method (mpi_auto_adaptation.hpp lines 652-667),
one step per iteration of the C++ for loop.  Arguments after the cap: the
remaining iteration budget (cap minus the counter), the counter i, the
current vector v, the current product Av = f v, the previous estimate eval,
and the caller's tolerance tol (written only at the break).  The Euclidean
norm .norm() is an Eigen collaborator operation and is passed in as vnorm.
The returned triple is (eval, max_iterations, tol) as the C++ code leaves
them in the return value and the two in/out parameters; the first
constructor case is the regular for-loop exit, reachable only when the
initial bound is not positive. -/
def pmGo (vnorm : List ℚ → ℚ) (f : List ℚ → List ℚ) (cap : ℕ) :
    ℕ → ℕ → List ℚ → List ℚ → ℚ → ℚ → ℚ × ℤ × ℚ
  | 0, _, _, _, eval, tol => (eval, (cap : ℤ), tol)
  | rem + 1, i, v, Av, eval, tol =>
    if i = cap - 1 ∨ |dotQ v Av / (vnorm v * vnorm v) - eval| ≤ tol * |eval| then
      (dotQ v Av / (vnorm v * vnorm v), (i : ℤ) + 1,
        |dotQ v Av / (vnorm v * vnorm v) - eval| / |eval|)
    else
      pmGo vnorm f cap rem (i + 1) (vdiv Av (vnorm Av)) (f (vdiv Av (vnorm Av)))
        (dotQ v Av / (vnorm v * vnorm v)) tol

/-- Embedding of internal::power_method (lines 645-670): initial vector v =
initial_guess, Av = f(v), check_matching_sizes on Av against v, then the
iteration loop; when the bound is not positive the loop body never runs and
eval = 0.0 is returned with both in/out parameters untouched. -/
def power_method (vnorm : List ℚ → ℚ) (f : List ℚ → List ℚ) (initialGuess : List ℚ)
    (maxIterations : ℤ) (tol : ℚ) : Except MathErr (ℚ × ℤ × ℚ) :=
  if (f initialGuess).length ≠ initialGuess.length then Except.error MathErr.invalidArgument
  else if maxIterations ≤ 0 then Except.ok (0, maxIterations, tol)
  else Except.ok (pmGo vnorm f maxIterations.toNat maxIterations.toNat 0
    initialGuess (f initialGuess) 0 tol)

/-- Vector iterates of the power-method loop: pmV 0 is the initial guess
and pmV (k+1) = f(pmV k) / norm(f(pmV k)) is the normalized update the loop
performs when it does not break at step k. -/
def pmV (vnorm : List ℚ → ℚ) (f : List ℚ → List ℚ) (guess : List ℚ) : ℕ → List ℚ
  | 0 => guess
  | k + 1 => vdiv (f (pmV vnorm f guess k)) (vnorm (f (pmV vnorm f guess k)))

/-- Estimate sequence of the power-method loop: pmE 0 = 0 is the initial
eval of the C++ code and pmE (k+1) is the new_eval Rayleigh quotient
computed at loop iteration k. -/
def pmE (vnorm : List ℚ → ℚ) (f : List ℚ → List ℚ) (guess : List ℚ) : ℕ → ℚ
  | 0 => 0
  | k + 1 =>
    dotQ (pmV vnorm f guess k) (f (pmV vnorm f guess k))
      / (vnorm (pmV vnorm f guess k) * vnorm (pmV vnorm f guess k))

/-- Held-out size of the selection pass (mpi_auto_adaptation.hpp lines
811-815): Ntest = int(0.2 * num_draws), modelled in exact arithmetic as
floor(num_draws / 5) for the non-negative num_draws the orchestrator
produces, raised to 5 when below 5. -/
def NtestSel (numDraws : ℤ) : ℤ :=
  let t : ℤ := ((numDraws.toNat / 5 : ℕ) : ℤ)
  if t < 5 then 5 else t

/-- Row count of Ytrain in the selection pass: num_draws - Ntest
(line 821). -/
def trainSizeSel (numDraws : ℤ) : ℤ := numDraws - NtestSel numDraws

/-- Shrinkage combination of line 831-832: the dense candidate
((n) / (n + 5.0)) * cov_train + 1e-3 * (5.0 / (n + 5.0)) * Identity, where
the C++ code instantiates n with num_draws - Ntest. -/
def shrinkDense (n : ℤ) (covTrain : MatQ) : MatQ := fun i j =>
  ((n : ℚ) / ((n : ℚ) + 5)) * covTrain i j
    + (1 / 1000) * (5 / ((n : ℚ) + 5)) * (if i = j then 1 else 0)

/-- Diagonal candidate of line 834: dense.diagonal().asDiagonal(). -/
def diagProj (d : MatQ) : MatQ := fun i j => if i = j then d i i else 0

/-- Block view Y.block(r0, 0, ..., n_params): shift the row index. -/
def blockAt (r0 : ℕ) (Y : MatQ) : MatQ := fun i j => Y (r0 + i) j

/-- Dense candidate the selection pass computes (lines 821-832): the
shrinkage combination of the training-set covariance, with
n = num_draws - Ntest, the training set being the block of
num_draws - Ntest rows of Y starting at first_draw. -/
def selectionDense (firstDraw : ℕ) (numDraws : ℤ) (Y : MatQ) : MatQ :=
  shrinkDense (trainSizeSel numDraws)
    (covarianceFn (trainSizeSel numDraws).toNat (blockAt firstDraw Y))

/-- Dense candidate the refinement pass computes (lines 826-832): Ntest is
0 and the training set is the whole block of num_draws usable rows. -/
def refinementDense (firstDraw : ℕ) (numDraws : ℤ) (Y : MatQ) : MatQ :=
  shrinkDense numDraws (covarianceFn numDraws.toNat (blockAt firstDraw Y))

/-- Modelled from the spec (claim C8's sentence, for comparison with the
source formula): the shrinkage result with the weight variable n taken to
be the training-set size minus the held-out size, as the spec words it —
n/(n+5) times the training covariance plus 1e-3 times 5/(n+5) times the
identity. -/
def denseC8Spec (trainSize heldOut : ℤ) (covTrain : MatQ) : MatQ := fun i j =>
  (((trainSize - heldOut : ℤ) : ℚ) / (((trainSize - heldOut : ℤ) : ℚ) + 5)) * covTrain i j
    + (1 / 1000) * (5 / (((trainSize - heldOut : ℤ) : ℚ) + 5)) * (if i = j then 1 else 0)

/-- Operations supplied by external collaborators of learn_metric, passed
in as parameters: llt is Eigen's Cholesky factor A.llt().matrixL(); sqrtQ
models std::sqrt and Eigen's array sqrt; escCov and escHess stand for
internal::eigenvalue_scaled_covariance and
internal::eigenvalue_scaled_hessian, whose values depend on
Eigen::VectorXd::Random draws and on the Model collaborator and are
therefore oracle inputs here — no claim proved below depends on the
numbers they return. -/
structure ExtOps where
  llt : MatQ → MatQ
  sqrtQ : ℚ → ℚ
  escCov : MatQ → MatQ → ℚ
  escHess : MatQ → (ℕ → ℚ) → ℚ

/-- Exceptions that can escape the two-pass try block of learn_metric:
the explicit std::runtime_error thrown when num_draws &lt; 10 at the selection
pass, and the std::invalid_argument of check_nonzero_size inside
internal::covariance on an empty block; both are caught by the
catch(const std::exception&amp;) handler. -/
inductive AdaptErr
  | insufficientSamples
  | emptyCovariance
  deriving DecidableEq

/-- Embedding of the try block of mpi_auto_adaptation::learn_metric
(mpi_auto_adaptation.hpp lines 804-872), the two passes unrolled in order
(selection then refinement).  The selection pass computes Ntest, throws
when num_draws &lt; 10, computes training and held-out covariances (their
check_nonzero_size guards appear as the emptyCovariance branches), forms
the dense and diagonal candidates, and compares the two condition-number
estimates built from the collaborator oracles; the refinement pass
recomputes the candidates over the whole usable range and returns the
winner together with the is_diagonal_ flag value. -/
def passesTry (ops : ExtOps) (Y : MatQ) (lastQs : List (ℕ → ℚ)) (M : ℕ)
    (firstDraw : ℕ) (numDraws : ℤ) : Except AdaptErr (MatQ × Bool) :=
  let Ntest := NtestSel numDraws
  if numDraws < 10 then Except.error AdaptErr.insufficientSamples
  else if (numDraws - Ntest).toNat * M = 0 then Except.error AdaptErr.emptyCovariance
  else if Ntest.toNat * M = 0 then Except.error AdaptErr.emptyCovariance
  else
    let covTest := covarianceFn Ntest.toNat (blockAt (firstDraw + (numDraws - Ntest).toNat) Y)
    let dense := selectionDense firstDraw numDraws Y
    let diagC := diagProj dense
    let Ldense := ops.llt dense
    let Ldiag : MatQ := fun i j => if i = j then ops.sqrtQ (diagC i i) else 0
    let lowDense := -1 / ops.escCov Ldense covTest
    let lowDiag := -1 / ops.escCov Ldiag covTest
    let cs := lastQs.foldl (fun c q =>
        (max c.1 (ops.sqrtQ (ops.escHess Ldense q / lowDense)),
         max c.2 (ops.sqrtQ (ops.escHess Ldiag q / lowDiag)))) ((0 : ℚ), (0 : ℚ))
    if numDraws.toNat * M = 0 then Except.error AdaptErr.emptyCovariance
    else
      let dense2 := refinementDense firstDraw numDraws Y
      if cs.1 < cs.2 then Except.ok (dense2, false)
      else Except.ok (diagProj dense2, true)

/-- Fallback metric of the catch handler (lines 873-880):
(num_draws / (num_draws + 5.0)) * Zero(M, M).diagonal()
+ 1e-3 * (5.0 / (num_draws + 5.0)) * Ones, taken as a diagonal matrix. -/
def fallbackDiag (numDraws : ℤ) : MatQ := fun i j =>
  if i = j then
    ((numDraws : ℚ) / ((numDraws : ℚ) + 5)) * 0 + (1 / 1000) * (5 / ((numDraws : ℚ) + 5))
  else 0

/-- Row offset of the first usable draw of the window (line 798):
num_chains * (max(win - 1, 0) * window_size + (win &gt; 0) * (window_size -
init_buffer)). -/
def first_draw_of (numChains win windowSize initBuffer : ℤ) : ℤ :=
  numChains * (max (win - 1) 0 * windowSize
    + (if 0 < win then 1 else 0) * (windowSize - initBuffer))

/-- Usable draw count of the window (line 799):
max(num_chains * draws_collected_counter_ - first_draw, 0). -/
def num_draws_of (numChains drawsCollected firstDraw : ℤ) : ℤ :=
  max (numChains * drawsCollected - firstDraw) 0

/-- Embedding of mpi_auto_adaptation::learn_metric after collect_draws and
the first_draw/num_draws bookkeeping: run the two passes and, when any
exception escapes them, fall back to the diagonal shrinkage metric with
is_diagonal_ = true (lines 873-880).  The returned pair is the output
metric covar together with the final is_diagonal_ flag; the plain (non
Except) return type reflects that no exception propagates out of
learn_metric. -/
def learn_metric (ops : ExtOps) (Y : MatQ) (lastQs : List (ℕ → ℚ)) (M : ℕ)
    (firstDraw : ℕ) (numDraws : ℤ) : MatQ × Bool :=
  match passesTry ops Y lastQs M firstDraw numDraws with
  | Except.ok r => r
  | Except.error _ => (fallbackDiag numDraws, true)

/- ===================== helper lemmas ===================== -/

theorem getD_set_self {α : Type} (x : List α) (k : ℕ) (v d : α) (h : k < x.length) :
    (x.set k v).getD k d = v := by
  induction x generalizing k with
  | nil => simp at h
  | cons hd tl ih =>
    cases k with
    | zero => rfl
    | succ k =>
      simp only [List.set_cons_succ, List.getD_cons_succ]
      exact ih k (by simpa using h)

theorem getD_set_ne {α : Type} (x : List α) (k j : ℕ) (v d : α) (h : k ≠ j) :
    (x.set k v).getD j d = x.getD j d := by
  induction x generalizing k j with
  | nil => simp [List.set]
  | cons hd tl ih =>
    cases k with
    | zero =>
      cases j with
      | zero => exact absurd rfl h
      | succ j => rfl
    | succ k =>
      cases j with
      | zero => rfl
      | succ j =>
        simp only [List.set_cons_succ, List.getD_cons_succ]
        exact ih k j (by omega)

theorem assignMultiLoop_err (ps : List (ℤ × ℚ)) :
    ∀ x : List ℚ, (∃ p ∈ ps, ¬(1 ≤ p.1 ∧ p.1 ≤ (x.length : ℤ))) →
    (assignMultiLoop x ps).2 = some IndexErr.outOfRange := by
  induction ps with
  | nil => intro x h; rcases h with ⟨p, hp, _⟩; cases hp
  | cons hd tl ih =>
    intro x h
    obtain ⟨i, yn⟩ := hd
    by_cases hc : 1 ≤ i ∧ i ≤ (x.length : ℤ)
    · rcases h with ⟨p, hp, hbad⟩
      rcases List.mem_cons.mp hp with rfl | hmem
      · exact absurd hc hbad
      · have : (assignMultiLoop x ((i, yn) :: tl)) =
            assignMultiLoop (x.set (i - 1).toNat yn) tl := by
          simp [assignMultiLoop, hc]
        rw [this]
        exact ih _ ⟨p, hmem, by simpa [List.length_set] using hbad⟩
    · simp [assignMultiLoop, hc]

theorem mem_zip_left (ns : List ℤ) :
    ∀ y : List ℚ, ns.length = y.length → ∀ i ∈ ns, ∃ b, (i, b) ∈ ns.zip y := by
  induction ns with
  | nil => intro y _ i hi; cases hi
  | cons hd tl ih =>
    intro y hlen i hi
    cases y with
    | nil => simp at hlen
    | cons yh yt =>
      rcases List.mem_cons.mp hi with rfl | hmem
      · exact ⟨yh, List.mem_cons_self _ _⟩
      · rcases ih yt (by simpa using hlen) i hmem with ⟨b, hb⟩
        exact ⟨b, List.mem_cons_of_mem _ hb⟩

theorem pmE_succ (vnorm : List ℚ → ℚ) (f : List ℚ → List ℚ) (guess : List ℚ) (k : ℕ) :
    pmE vnorm f guess (k + 1)
      = dotQ (pmV vnorm f guess k) (f (pmV vnorm f guess k))
          / (vnorm (pmV vnorm f guess k) * vnorm (pmV vnorm f guess k)) := rfl

theorem pmV_succ (vnorm : List ℚ → ℚ) (f : List ℚ → List ℚ) (guess : List ℚ) (k : ℕ) :
    pmV vnorm f guess (k + 1)
      = vdiv (f (pmV vnorm f guess k)) (vnorm (f (pmV vnorm f guess k))) := rfl

theorem pmGo_min (vnorm : List ℚ → ℚ) (f : List ℚ → List ℚ) (guess : List ℚ)
    (tol0 : ℚ) (cap s : ℕ)
    (hs : s = cap - 1 ∨
      |pmE vnorm f guess (s + 1) - pmE vnorm f guess s| ≤ tol0 * |pmE vnorm f guess s|)
    (hscap : s < cap) :
    ∀ rem i, rem + i = cap → i ≤ s →
    (∀ j, i ≤ j → j < s →
      ¬(j = cap - 1 ∨
        |pmE vnorm f guess (j + 1) - pmE vnorm f guess j| ≤ tol0 * |pmE vnorm f guess j|)) →
    pmGo vnorm f cap rem i (pmV vnorm f guess i) (f (pmV vnorm f guess i))
        (pmE vnorm f guess i) tol0
      = (pmE vnorm f guess (s + 1), (s : ℤ) + 1,
          |pmE vnorm f guess (s + 1) - pmE vnorm f guess s| / |pmE vnorm f guess s|) := by
  intro rem
  induction rem with
  | zero =>
    intro i hri his _
    omega
  | succ rem ih =>
    intro i hri his hmin
    rw [pmGo]
    rw [← pmE_succ vnorm f guess i]
    by_cases hcond : i = cap - 1 ∨
        |pmE vnorm f guess (i + 1) - pmE vnorm f guess i| ≤ tol0 * |pmE vnorm f guess i|
    · have hsi : i = s := by
        rcases Nat.lt_or_ge i s with hlt | hge
        · exact absurd hcond (hmin i le_rfl hlt)
        · omega
      subst hsi
      rw [if_pos hcond]
    · have hlt : i < s := by
        rcases Nat.lt_or_ge i s with hlt | hge
        · exact hlt
        · have : i = s := by omega
          subst this
          exact absurd hs hcond
      rw [if_neg hcond]
      rw [← pmV_succ vnorm f guess i]
      exact ih (i + 1) (by omega) (by omega) (fun j hj1 hj2 => hmin j (by omega) hj2)

/- ===================== claim theorems ===================== -/

/-- C1 (code_bug evaluation): the min-max vector assignment at the failing
input x = [1,2,3,4,5], ascending index min_max(1,3), y = [10,20,30] — the
addressed range 1..3 has max - min + 1 = 3 positions, yet the code compares
y.size() against max_ - 1 = 2 and raises the size-mismatch error; and with
a length-2 value, which the claim says must be rejected, the code accepts
and writes only positions 1..2. -/
theorem assign_vec_min_max_bug_eval :
    assignVecMinMax [1, 2, 3, 4, 5] 1 3 true [10, 20, 30]
        = ([1, 2, 3, 4, 5], some IndexErr.sizeMismatch) ∧
    assignVecMinMax [1, 2, 3, 4, 5] 1 3 true [10, 20]
        = ([10, 20, 3, 4, 5], none) := by
  constructor
  · decide
  · decide

/-- C2: the spec scenario — on the vector [1,2,3,4,5], the ascending
min-max index (2,4) assigned [10,20,30] yields [1,10,20,30,5], and the
reversed min-max index (min=4, max=2, descending) assigned [10,20,30]
yields [1,30,20,10,5].  (At min_ = 2 and at max_ = 2 the buggy size
expressions max_ - 1 and min_ - 1 coincide with the addressed range
length, so this scenario is unaffected by the C1 defect.) -/
theorem assign_vec_min_max_scenario :
    assignVecMinMax [1, 2, 3, 4, 5] 2 4 true [10, 20, 30]
        = ([1, 10, 20, 30, 5], none) ∧
    assignVecMinMax [1, 2, 3, 4, 5] 4 2 false [10, 20, 30]
        = ([1, 30, 20, 10, 5], none) := by
  constructor
  · decide
  · decide

/-- C3: when the usable draw count of a window is below 10, the selection
pass raises the insufficient-samples failure, learn_metric catches it (its
plain return type carries no exception out) and still produces an output
metric: the diagonal shrinkage fallback with is_diagonal_ = true — for any
collaborator oracles, sample matrix, retained draws, parameter count and
first-draw offset. -/
theorem learn_metric_insufficient_draws (ops : ExtOps) (Y : MatQ)
    (lastQs : List (ℕ → ℚ)) (M : ℕ) (firstDraw : ℕ) (numDraws : ℤ)
    (h : numDraws < 10) :
    passesTry ops Y lastQs M firstDraw numDraws
        = Except.error AdaptErr.insufficientSamples ∧
    learn_metric ops Y lastQs M firstDraw numDraws = (fallbackDiag numDraws, true) ∧
    (∀ i j, i ≠ j → fallbackDiag numDraws i j = 0) := by
  have hp : passesTry ops Y lastQs M firstDraw numDraws
      = Except.error AdaptErr.insufficientSamples := by
    simp [passesTry, h]
  refine ⟨hp, ?_, ?_⟩
  · simp [learn_metric, hp]
  · intro i j hij
    simp [fallbackDiag, hij]

/-- C3 witness: at num_draws = 8 with concrete trivial oracles. -/
theorem learn_metric_insufficient_draws_witness :
    passesTry ⟨id, id, fun _ _ => 0, fun _ _ => 0⟩ (fun _ _ => 0) [] 1 0 8
        = Except.error AdaptErr.insufficientSamples ∧
    learn_metric ⟨id, id, fun _ _ => 0, fun _ _ => 0⟩ (fun _ _ => 0) [] 1 0 8
        = (fallbackDiag 8, true) ∧
    (∀ i j, i ≠ j → fallbackDiag 8 i j = 0) :=
  learn_metric_insufficient_draws ⟨id, id, fun _ _ => 0, fun _ _ => 0⟩
    (fun _ _ => 0) [] 1 0 8 (by decide)

/-- C4 counterexample: the multi-index assignment of [10,20] to [1,2,3] at
positions [1,7] raises the out-of-range error (7 &gt; 3), but the target is
not left unmodified — position 1 was already overwritten with 10 before
the failing bounds check, so the claim that the target never changes is
false. -/
theorem assign_out_of_range_cex :
    assignVecMulti [1, 2, 3] [1, 7] [10, 20] = ([10, 2, 3], some IndexErr.outOfRange) ∧
    ([10, 2, 3] : List ℚ) ≠ [1, 2, 3] := by
  constructor
  · decide
  · decide

/-- C4 (amended): an out-of-range position always raises the out-of-range
error; the single-index overload checks before its only write and leaves
the target unmodified, and the multi-index overload raises at the first
out-of-range position — leaving the target unmodified when that position is
the first of the list, while writes for earlier in-range positions stand. -/
theorem assign_out_of_range_amended :
    (∀ (x : List ℚ) (n : ℤ) (y : ℚ), ¬(1 ≤ n ∧ n ≤ (x.length : ℤ)) →
      assignVecUni x n y = (x, some IndexErr.outOfRange)) ∧
    (∀ (x : List ℚ) (i : ℤ) (ns : List ℤ) (y : List ℚ),
      (i :: ns).length = y.length → ¬(1 ≤ i ∧ i ≤ (x.length : ℤ)) →
      assignVecMulti x (i :: ns) y = (x, some IndexErr.outOfRange)) ∧
    (∀ (x : List ℚ) (ns : List ℤ) (y : List ℚ), ns.length = y.length →
      (∃ i ∈ ns, ¬(1 ≤ i ∧ i ≤ (x.length : ℤ))) →
      (assignVecMulti x ns y).2 = some IndexErr.outOfRange) := by
  refine ⟨?_, ?_, ?_⟩
  · intro x n y h
    simp [assignVecUni, h]
  · intro x i ns y hlen hbad
    cases y with
    | nil => simp at hlen
    | cons yh yt =>
      simp only [assignVecMulti, hlen, ne_eq, not_true_eq_false, if_false]
      simp [List.zip_cons_cons, assignMultiLoop, hbad]
  · intro x ns y hlen hex
    simp only [assignVecMulti, hlen, ne_eq, not_true_eq_false, if_false]
    rcases hex with ⟨i, hi, hbad⟩
    rcases mem_zip_left ns y hlen i hi with ⟨b, hb⟩
    exact assignMultiLoop_err _ x ⟨(i, b), hb, hbad⟩

/-- C4 witness for the amended statement: the single-index overload at the
out-of-range position 5 on a length-3 vector. -/
theorem assign_out_of_range_amended_witness :
    assignVecUni [1, 2, 3] 5 9 = ([1, 2, 3], some IndexErr.outOfRange) :=
  assign_out_of_range_amended.1 [1, 2, 3] 5 9 (by decide)

/-- C5: a multi-index assignment whose resolved position count differs
from the value's length raises the size-mismatch error before the write
loop runs, leaving the target unmodified. -/
theorem assign_vec_multi_size_mismatch (x : List ℚ) (ns : List ℤ) (y : List ℚ)
    (h : ns.length ≠ y.length) :
    assignVecMulti x ns y = (x, some IndexErr.sizeMismatch) := by
  simp [assignVecMulti, h]

/-- C5 witness: one position, two values. -/
theorem assign_vec_multi_size_mismatch_witness :
    assignVecMulti [1, 2] [1] [5, 6] = ([1, 2], some IndexErr.sizeMismatch) :=
  assign_vec_multi_size_mismatch [1, 2] [1] [5, 6] (by decide)

/-- C6: power_method (a total function here, so it terminates on every
input) stops at the first loop index s at which either the iteration cap is
reached (s = cap - 1) or the change between the successive estimates
pmE (s+1) and pmE s is within the supplied relative tolerance; it then
returns the final estimate pmE (s+1) — converged or not — and leaves in the
max_iterations output the number s + 1 of iterations actually used, which
is at most the supplied cap, and in the tol output the achieved relative
change between the last two estimates. -/
theorem power_method_stops_at_first (vnorm : List ℚ → ℚ) (f : List ℚ → List ℚ)
    (guess : List ℚ) (maxIterations : ℤ) (tol0 : ℚ) (s : ℕ)
    (hlen : (f guess).length = guess.length)
    (hcap : 1 ≤ maxIterations)
    (hs : s = maxIterations.toNat - 1 ∨
      |pmE vnorm f guess (s + 1) - pmE vnorm f guess s| ≤ tol0 * |pmE vnorm f guess s|)
    (hmin : ∀ j < s, ¬(j = maxIterations.toNat - 1 ∨
      |pmE vnorm f guess (j + 1) - pmE vnorm f guess j| ≤ tol0 * |pmE vnorm f guess j|)) :
    power_method vnorm f guess maxIterations tol0
      = Except.ok (pmE vnorm f guess (s + 1), (s : ℤ) + 1,
          |pmE vnorm f guess (s + 1) - pmE vnorm f guess s| / |pmE vnorm f guess s|) ∧
    (s : ℤ) + 1 ≤ maxIterations := by
  have hcap' : 1 ≤ maxIterations.toNat := by omega
  have hslt : s < maxIterations.toNat := by
    by_contra hge
    exact hmin (maxIterations.toNat - 1) (by omega) (Or.inl rfl)
  constructor
  · have hne : ¬(f guess).length ≠ guess.length := by simpa using hlen
    have hpos : ¬maxIterations ≤ 0 := by omega
    rw [power_method, if_neg hne, if_neg hpos]
    have hmain := pmGo_min vnorm f guess tol0 maxIterations.toNat s hs hslt
      maxIterations.toNat 0 (by omega) (by omega)
      (fun j _ hj2 => hmin j hj2)
    exact congrArg (@Except.ok MathErr (ℚ × ℤ × ℚ)) hmain
  · omega

/-- C6 witness: identity operator on a one-dimensional vector, trivial
norm, cap 1, tolerance 0 — the loop reaches the iteration cap at its first
step (s = 0 = cap - 1), stops there, uses one iteration (within the cap)
and returns the first Rayleigh estimate even though the tolerance 0 was
not met. -/
theorem power_method_stops_at_first_witness :
    power_method (fun _ => 1) id [(1 : ℚ)] 1 0
      = Except.ok (pmE (fun _ => 1) id [(1 : ℚ)] (0 + 1), ((0 : ℕ) : ℤ) + 1,
          |pmE (fun _ => 1) id [(1 : ℚ)] (0 + 1) - pmE (fun _ => 1) id [(1 : ℚ)] 0|
            / |pmE (fun _ => 1) id [(1 : ℚ)] 0|) ∧
    ((0 : ℕ) : ℤ) + 1 ≤ 1 :=
  power_method_stops_at_first (fun _ => 1) id [(1 : ℚ)] 1 0 0 rfl (by decide)
    (Or.inl (by decide)) (fun j hj => absurd hj (Nat.not_lt_zero j))

/-- C7 counterexample: a matrix with one row and zero columns has Eigen
size 0, so internal::covariance raises the invalid-argument failure of
check_nonzero_size instead of returning a zero matrix — the claim, which
quantifies over every one-row matrix, fails at this degenerate input. -/
theorem covariance_single_row_cex :
    covariance 1 0 (fun _ _ => (0 : ℚ)) = Except.error MathErr.invalidArgument ∧
    ∀ Z : MatQ, covariance 1 0 (fun _ _ => (0 : ℚ)) ≠ Except.ok Z := by
  constructor
  · rfl
  · intro Z h
    simp [covariance] at h

/-- C7 (amended): for a matrix with exactly one row and at least one
column the covariance estimate is the zero matrix (of the column dimension, which
the entry function realizes at every index), and the divisor
max(rows - 1, 1) equals 1 for one row and is never zero for any row count,
so no entry arises from a zero division. -/
theorem covariance_single_row_amended (n : ℕ) (Y : MatQ) (h : 1 ≤ n) :
    covariance 1 n Y = Except.ok (fun _ _ => (0 : ℚ)) ∧
    covDivisor 1 = 1 ∧
    (∀ m : ℕ, covDivisor m ≠ 0) := by
  refine ⟨?_, by norm_num [covDivisor], ?_⟩
  · have hn : ¬(1 * n = 0) := by omega
    rw [covariance, if_neg hn]
    congr 1
    funext i j
    simp [covarianceFn, colMean, covDivisor, Finset.sum_range_one]
  · intro m
    have h1 : (1 : ℚ) ≤ covDivisor m := le_max_right _ _
    positivity

/-- C7 witness for the amended statement: one row, two columns, constant
entries. -/
theorem covariance_single_row_amended_witness :
    covariance 1 2 (fun _ _ => (3 : ℚ)) = Except.ok (fun _ _ => (0 : ℚ)) ∧
    covDivisor 1 = 1 ∧
    (∀ m : ℕ, covDivisor m ≠ 0) :=
  covariance_single_row_amended 2 (fun _ _ => (3 : ℚ)) (by decide)

/-- C8 counterexample: at num_draws = 25 (Ntest = 5, training-set size 20)
on an all-zero sample block, the selection pass's dense candidate has
1e-3 * 5 / 25 = 1/5000 on the diagonal (the code weights with
n = num_draws - Ntest = 20), while the spec formula with n equal to the
training-set size minus the held-out size (20 - 5 = 15) gives
1e-3 * 5 / 20 = 1/4000. -/
theorem shrinkage_n_cex :
    selectionDense 0 25 (fun _ _ => 0) 0 0
      ≠ denseC8Spec (trainSizeSel 25) (NtestSel 25)
          (covarianceFn (trainSizeSel 25).toNat (blockAt 0 (fun _ _ => 0))) 0 0 := by
  have h1 : NtestSel 25 = 5 := by decide
  have h2 : trainSizeSel 25 = 20 := by decide
  have h3 : covarianceFn (trainSizeSel 25).toNat (blockAt 0 (fun _ _ => 0)) 0 0 = 0 := by
    simp [covarianceFn, colMean, blockAt]
  have hL : selectionDense 0 25 (fun _ _ => 0) 0 0 = 1 / 5000 := by
    simp only [selectionDense, shrinkDense, h3]
    rw [h2]
    norm_num
  have hR : denseC8Spec (trainSizeSel 25) (NtestSel 25)
      (covarianceFn (trainSizeSel 25).toNat (blockAt 0 (fun _ _ => 0))) 0 0 = 1 / 4000 := by
    simp only [denseC8Spec, h3]
    rw [h2, h1]
    norm_num
  rw [hL, hR]
  norm_num

/-- C8 (amended): in each pass of learn_metric the dense candidate equals
n/(n+5) times the training-set sample covariance plus 1e-3 times 5/(n+5)
times the identity, where n is the training-set size itself — the usable
draws minus the held-out size in the selection pass, and all usable draws
in the refinement pass — and the diagonal candidate is the diagonal
projection of that dense candidate. -/
theorem shrinkage_formula_amended :
    ∀ (firstDraw : ℕ) (numDraws : ℤ) (Y : MatQ),
      selectionDense firstDraw numDraws Y
        = denseC8Spec (trainSizeSel numDraws) 0
            (covarianceFn (trainSizeSel numDraws).toNat (blockAt firstDraw Y)) ∧
      refinementDense firstDraw numDraws Y
        = denseC8Spec numDraws 0 (covarianceFn numDraws.toNat (blockAt firstDraw Y)) ∧
      (∀ i j, diagProj (selectionDense firstDraw numDraws Y) i j
        = if i = j then selectionDense firstDraw numDraws Y i i else 0) := by
  intro firstDraw numDraws Y
  refine ⟨?_, ?_, fun i j => rfl⟩
  · funext i j
    simp [selectionDense, shrinkDense, denseC8Spec]
  · funext i j
    simp [refinementDense, shrinkDense, denseC8Spec]

/-- C9: a single-index assignment at an in-range position succeeds; the
written position reads back as the written value and every other position
reads back unchanged. -/
theorem assign_vec_uni_roundtrip (x : List ℚ) (n : ℤ) (y : ℚ)
    (h1 : 1 ≤ n) (h2 : n ≤ (x.length : ℤ)) :
    (assignVecUni x n y).2 = none ∧
    (assignVecUni x n y).1.getD (n - 1).toNat 0 = y ∧
    ∀ j : ℕ, j ≠ (n - 1).toNat → (assignVecUni x n y).1.getD j 0 = x.getD j 0 := by
  have hcond : 1 ≤ n ∧ n ≤ (x.length : ℤ) := ⟨h1, h2⟩
  have hk : (n - 1).toNat < x.length := by omega
  refine ⟨by simp [assignVecUni, hcond], ?_, ?_⟩
  · simp only [assignVecUni, if_pos hcond]
    exact getD_set_self x _ y 0 hk
  · intro j hj
    simp only [assignVecUni, if_pos hcond]
    exact getD_set_ne x _ j y 0 (fun he => hj he.symm)

/-- C9 witness: write 9 at position 2 of [1,2,3]. -/
theorem assign_vec_uni_roundtrip_witness :
    (assignVecUni [1, 2, 3] 2 9).2 = none ∧
    (assignVecUni [1, 2, 3] 2 9).1.getD ((2 : ℤ) - 1).toNat 0 = 9 ∧
    ∀ j : ℕ, j ≠ ((2 : ℤ) - 1).toNat →
      (assignVecUni [1, 2, 3] 2 9).1.getD j 0 = ([1, 2, 3] : List ℚ).getD j 0 :=
  assign_vec_uni_roundtrip [1, 2, 3] 2 9 (by decide) (by decide)

/-- C10: the mat[uni, omni] overload validates only the column-count size
match and performs no bounds check on the row index — with matching column
counts it reports no error even for a row index outside [1, rows] — while
the mat[uni] overload rejects the same out-of-range row index with the
out-of-range error. -/
theorem assign_mat_uni_omni_no_range_check (x : MatQd) (n : ℤ) (y : List ℚ)
    (hc : y.length = x.cols) (hout : ¬(1 ≤ n ∧ n ≤ (x.rows : ℤ))) :
    (assignMatUniOmni x n y).2 = none ∧
    (assignMatUni x n y).2 = some IndexErr.outOfRange := by
  constructor
  · simp [assignMatUniOmni, hc]
  · simp [assignMatUni, hc, hout]

/-- C10 witness: a 2-by-2 matrix, row index 5, a length-2 row vector. -/
theorem assign_mat_uni_omni_no_range_check_witness :
    (assignMatUniOmni ⟨2, 2, fun _ _ => 0⟩ 5 [7, 8]).2 = none ∧
    (assignMatUni ⟨2, 2, fun _ _ => 0⟩ 5 [7, 8]).2 = some IndexErr.outOfRange :=
  assign_mat_uni_omni_no_range_check ⟨2, 2, fun _ _ => 0⟩ 5 [7, 8] (by decide) (by decide)
